import Mathlib

set_option maxHeartbeats 4000000
set_option maxRecDepth 16000

/-!
Shallow embedding of the rule-based "LegalAI" dashboard in `prototype.py`.

Strings are modelled as `List Char`.  Python's case operations, `\w`, and
whitespace are modelled at the ASCII level (the data handled by the program
is ASCII).  `re.sub` for the nine patterns of the form `\bLITERAL\b` with
`re.IGNORECASE` is modelled by `re_sub_wb_ci`: a left-to-right scan over the
original string that replaces non-overlapping word-bounded case-insensitive
occurrences, with word-boundary tests evaluated against the original string
(as the Python regex engine does).
-/

/-- ASCII model of Python's regex word character class `\w`. -/
def isWordChar (c : Char) : Bool := c.isAlphanum || c == '_'

/-- Python whitespace characters used by `str.split()` / `str.strip()`. -/
def isPySpace (c : Char) : Bool :=
  c == ' ' || c == '\t' || c == '\n' || c == '\x0d' || c == '\x0b' || c == '\x0c'

/-- `str.lower()`: character-wise lowering (ASCII model). -/
def lowerStr (s : List Char) : List Char := s.map Char.toLower

/-- Whether an optional character (a position just outside the string counts
as `none`) is a word character. -/
def optIsWord : Option Char → Bool
  | none => false
  | some c => isWordChar c

/-- Regex `\b`: holds between two (optional) characters iff exactly one side
is a word character. -/
def wordBoundary (l r : Option Char) : Bool := optIsWord l != optIsWord r

/-- Case-insensitive literal match of `pat` against a prefix of `s`. -/
def ciMatchesAt : List Char → List Char → Bool
  | [], _ => true
  | _ :: _, [] => false
  | p :: ps, c :: cs => (p.toLower == c.toLower) && ciMatchesAt ps cs

/-- Does the pattern `\b pat \b` (case-insensitive) match at the start of `s`,
where `prev` is the original character just before `s`? -/
def matchAt (pat : List Char) (prev : Option Char) (s : List Char) : Bool :=
  ciMatchesAt pat s &&
  wordBoundary prev s.head? &&
  wordBoundary (s.take pat.length).getLast? (s.drop pat.length).head?

/-- Scanning core of `re.sub(r'\b..\b', rep, s, flags=re.IGNORECASE)` for a
non-empty literal pattern `p0 :: ps`: replaces non-overlapping matches found
left to right in the original string; `prev` is the original character before
the current position (used for the left word-boundary test).  The `fuel`
argument makes the recursion structural; every scan step consumes at least
one character, so any `fuel ≥ s.length` gives the scan's value. -/
def reSubAux (p0 : Char) (ps rep : List Char) (fuel : Nat) :
    Option Char → List Char → List Char :=
  Nat.rec (motive := fun _ => Option Char → List Char → List Char)
    (fun _ s => s)
    (fun _ ih prev s =>
      match s with
      | [] => []
      | c :: rest =>
        if matchAt (p0 :: ps) prev (c :: rest) then
          rep ++ ih ((c :: rest).take (p0 :: ps).length).getLast?
            (rest.drop ps.length)
        else
          c :: ih (some c) rest)
    fuel

/-- Unfolding: exhausted fuel returns the string unchanged (unreachable when
the initial fuel is the string length). -/
theorem reSubAux_zero (p0 : Char) (ps rep : List Char) (prev : Option Char)
    (s : List Char) : reSubAux p0 ps rep 0 prev s = s := rfl

/-- Unfolding: the scan of the empty string. -/
theorem reSubAux_succ_nil (p0 : Char) (ps rep : List Char) (fuel : Nat)
    (prev : Option Char) : reSubAux p0 ps rep (fuel + 1) prev [] = [] := rfl

/-- Unfolding: one scan step — replace a match and resume after it, else copy
one character. -/
theorem reSubAux_succ_cons (p0 : Char) (ps rep : List Char) (fuel : Nat)
    (prev : Option Char) (c : Char) (rest : List Char) :
    reSubAux p0 ps rep (fuel + 1) prev (c :: rest) =
      if matchAt (p0 :: ps) prev (c :: rest) then
        rep ++ reSubAux p0 ps rep fuel
          ((c :: rest).take (p0 :: ps).length).getLast? (rest.drop ps.length)
      else
        c :: reSubAux p0 ps rep fuel (some c) rest := rfl

/-- `re.sub(r'\b' + pat + r'\b', rep, s, flags=re.IGNORECASE)` for a literal
`pat` (all nine patterns of the source are non-empty literals). -/
def re_sub_wb_ci (pat rep s : List Char) : List Char :=
  match pat with
  | [] => s
  | p0 :: ps => reSubAux p0 ps rep s.length none s

/-- Does `s` contain a word-bounded case-insensitive occurrence of the
non-empty pattern `p0 :: ps`?  Scans every position, threading the previous
original character for the boundary test. -/
def hasOccAux (p0 : Char) (ps : List Char) (prev : Option Char) : List Char → Bool
  | [] => false
  | c :: rest => matchAt (p0 :: ps) prev (c :: rest) || hasOccAux p0 ps (some c) rest

/-- Does `s` contain a word-bounded case-insensitive occurrence of `pat`? -/
def has_wb_occurrence (pat s : List Char) : Bool :=
  match pat with
  | [] => false
  | p0 :: ps => hasOccAux p0 ps none s

/-- The nine `(pattern, replacement)` pairs of `simplify_legal_text`, in
source order (`simplified_patterns` in `prototype.py`, lines 148-158); each
pattern stands for `\b<literal>\b` applied with `re.IGNORECASE`. -/
def simplified_patterns : List (List Char × List Char) :=
  [("whereas".toList, "Since".toList),
   ("heretofore".toList, "before this".toList),
   ("hereinafter".toList, "from now on".toList),
   ("notwithstanding".toList, "despite".toList),
   ("pursuant to".toList, "according to".toList),
   ("shall".toList, "must".toList),
   ("may".toList, "can".toList),
   ("party of the first part".toList, "first party".toList),
   ("party of the second part".toList, "second party".toList)]

/-- One step of the substitution loop body (`simplified = re.sub(pattern,
replacement, simplified, flags=re.IGNORECASE)`). -/
def apply_sub (s : List Char) (pr : List Char × List Char) : List Char :=
  re_sub_wb_ci pr.1 pr.2 s

/-- `LegalAI.simplify_legal_text` (`prototype.py` lines 143-164): applies the
nine substitutions to the text in the listed order. -/
def simplify_legal_text (text : List Char) : List Char :=
  simplified_patterns.foldl apply_sub text

/-- Python `needle in hay` substring test on strings. -/
def isSubstrB (needle : List Char) : List Char → Bool
  | [] => needle.isEmpty
  | c :: rest => needle.isPrefixOf (c :: rest) || isSubstrB needle rest

/-- Does the lowercased string contain any of the keywords (Python
`any(keyword in s for keyword in kws)`)? -/
def containsAnyB (kws : List (List Char)) (s : List Char) : Bool :=
  kws.any (fun k => isSubstrB k s)

/-- `str.title()` (ASCII model): uppercase a letter not preceded by a letter,
lowercase a letter preceded by one. -/
def titleAux (prevAlpha : Bool) : List Char → List Char
  | [] => []
  | c :: cs =>
    (if c.isAlpha then (if prevAlpha then c.toLower else c.toUpper) else c) ::
      titleAux c.isAlpha cs

/-- `str.title()` on a whole string. -/
def titleStr (s : List Char) : List Char := titleAux false s

/-- `str.strip()`: drop Python whitespace from both ends. -/
def stripStr (s : List Char) : List Char :=
  ((s.dropWhile isPySpace).reverse.dropWhile isPySpace).reverse

/-- `text.split('.')` (single-character separator). -/
def splitDot : List Char → List (List Char)
  | [] => [[]]
  | c :: cs =>
    match splitDot cs with
    | [] => [[]]
    | h :: t => if c == '.' then [] :: h :: t else (c :: h) :: t

/-- Word counting of `len(text.split())`: number of maximal runs of
non-whitespace characters. -/
def countWordsAux (inWord : Bool) : List Char → Nat
  | [] => 0
  | c :: cs =>
    if isPySpace c then countWordsAux false cs
    else (if inWord then 0 else 1) + countWordsAux true cs

/-- `len(text.split())`. -/
def countWords (s : List Char) : Nat := countWordsAux false s

/-- `self.legal_terms_db` (`prototype.py` lines 109-120): the static ten-entry
term-to-definition mapping, in insertion order. -/
def legal_terms_db : List (List Char × List Char) :=
  [("consideration".toList,
    "Something of value exchanged between parties in a contract".toList),
   ("tort".toList,
    "A civil wrong that causes harm to another person".toList),
   ("liability".toList,
    "Legal responsibility for one\x27s actions or debts".toList),
   ("indemnification".toList,
    "Protection from legal responsibility or compensation for losses".toList),
   ("jurisdiction".toList,
    "The authority of a court to hear and decide cases".toList),
   ("force majeure".toList,
    "Unforeseeable circumstances that prevent fulfilling a contract".toList),
   ("arbitration".toList,
    "Resolving disputes outside of court with a neutral third party".toList),
   ("liquidated damages".toList,
    "Pre-agreed amount of compensation for contract breach".toList),
   ("severability".toList,
    "If one part of contract is invalid, the rest remains enforceable".toList),
   ("governing law".toList,
    "Which state or country\x27s laws apply to the contract".toList)]

/-- The terms marked high importance in `extract_key_terms` (line 138). -/
def high_importance_terms : List (List Char) :=
  ["liability".toList, "governing law".toList, "arbitration".toList]

/-- Greedy trailing `.{0,50}` of the context pattern: up to 50 characters,
stopping at a newline. -/
def ctxPost (s : List Char) : List Char := (s.take 50).takeWhile (fun c => c != '\n')

/-- Try the leading `.{0,k}` of the context pattern `.{0,50}term.{0,50}` at a
fixed start position, greedily from `k` downwards (Python regex backtracking
order). -/
def ctxTryK (term s : List Char) : Nat → Option (List Char)
  | 0 =>
    if ciMatchesAt term s then
      some (s.take term.length ++ ctxPost (s.drop term.length))
    else none
  | k + 1 =>
    if ((s.take (k + 1)).length == k + 1) &&
        (s.take (k + 1)).all (fun c => c != '\n') &&
        ciMatchesAt term (s.drop (k + 1)) then
      some (s.take (k + 1) ++ (s.drop (k + 1)).take term.length ++
        ctxPost (s.drop (k + 1 + term.length)))
    else ctxTryK term s k

/-- First match of `.{0,50}term.{0,50}` (IGNORECASE) at the start position of
`s`, if any. -/
def ctxAt (term s : List Char) : Option (List Char) :=
  ctxTryK term s (min 50 s.length)

/-- Leftmost match of the context pattern: scan start positions left to
right. -/
def findContextAux (term : List Char) : List Char → List Char
  | [] =>
    match ctxAt term [] with
    | some m => m
    | none => []
  | c :: rest =>
    match ctxAt term (c :: rest) with
    | some m => m
    | none => findContextAux term rest

/-- `re.findall(rf'.{0,50}{re.escape(term)}.{0,50}', text, re.IGNORECASE)`,
first match if any, else the empty string (lines 130-132). -/
def findContext (term text : List Char) : List Char := findContextAux term text

/-- One entry of the list returned by `extract_key_terms` (lines 134-139). -/
structure TermEntry where
  term : List Char
  definition : List Char
  context : List Char
  importance : List Char
deriving DecidableEq

/-- `LegalAI.extract_key_terms` (lines 122-141), parameterized by the term
database `self.legal_terms_db`: for each `(term, definition)` of the database
in order, if `term in text.lower()` then emit an entry. -/
def extract_key_terms_db (db : List (List Char × List Char)) (text : List Char) :
    List TermEntry :=
  db.filterMap (fun td =>
    if isSubstrB td.1 (lowerStr text) then
      some { term := titleStr td.1,
             definition := td.2,
             context := findContext td.1 text,
             importance :=
               if high_importance_terms.contains td.1 then "High".toList
               else "Medium".toList }
    else none)

/-- `extract_key_terms` on the program's `legal_ai` instance. -/
def extract_key_terms (text : List Char) : List TermEntry :=
  extract_key_terms_db legal_terms_db text

/-- Round-half-even of a rational to an integer (Python's `round`). -/
def rhe (q : ℚ) : ℤ :=
  let f := Int.floor q
  let r := q - f
  if r < 1/2 then f
  else if 1/2 < r then f + 1
  else if f % 2 = 0 then f else f + 1

/-- Python `round(x, 1)` over the exact-rational idealization of the source's
float arithmetic. -/
def pyRound1 (q : ℚ) : ℚ := (rhe (10 * q) : ℚ) / 10

/-- The dictionary returned by `analyze_document_structure` (lines 185-192). -/
structure DocStructure where
  word_count : Nat
  sentence_count : Nat
  complexity_score : ℚ
  readability_score : ℚ
  estimated_read_time : Nat
  sections_identified : List (List Char)
deriving DecidableEq

/-- `LegalAI.analyze_document_structure` (lines 166-192); numeric fields use
exact rational arithmetic in place of Python floats. -/
def analyze_document_structure (text : List Char) : DocStructure :=
  let word_count := countWords text
  let sentence_count :=
    ((splitDot text).filter (fun s => !(stripStr s).isEmpty)).length
  let complexity_score : ℚ :=
    min 100 ((word_count : ℚ) / 10 + (sentence_count : ℚ) / 5)
  let readability : ℚ := 100 - complexity_score
  let sections :=
    (if isSubstrB "whereas".toList (lowerStr text) then
      ["Recitals/Background".toList] else []) ++
    (if isSubstrB "agree".toList (lowerStr text) then
      ["Agreement Terms".toList] else []) ++
    (if isSubstrB "terminate".toList (lowerStr text) then
      ["Termination Clauses".toList] else []) ++
    (if isSubstrB "govern".toList (lowerStr text) then
      ["Governing Law".toList] else [])
  { word_count := word_count,
    sentence_count := sentence_count,
    complexity_score := pyRound1 complexity_score,
    readability_score := pyRound1 readability,
    estimated_read_time := max 1 (word_count / 200),
    sections_identified := sections }

/-- `risk_keywords` (line 196). -/
def risk_keywords : List (List Char) :=
  ["liable".toList, "penalty".toList, "breach".toList, "default".toList,
   "terminate".toList, "forfeit".toList, "damages".toList]

/-- `obligation_keywords` (line 197). -/
def obligation_keywords : List (List Char) :=
  ["must".toList, "shall".toList, "required".toList, "obligated".toList,
   "responsible".toList, "duty".toList]

/-- The inline high-severity word list of line 210. -/
def high_severity_keywords : List (List Char) :=
  ["penalty".toList, "damages".toList, "forfeit".toList]

/-- One risk entry (lines 208-211). -/
structure RiskItem where
  text : List Char
  severity : List Char
deriving DecidableEq

/-- One obligation entry (lines 213-217). -/
structure ObligationItem where
  text : List Char
  type : List Char
deriving DecidableEq

/-- The dictionary returned by `identify_risks_and_obligations`. -/
structure RiskReport where
  risks : List RiskItem
  obligations : List ObligationItem
deriving DecidableEq

/-- `sentences` of lines 202: `'.'`-split, stripped, non-empty segments. -/
def sentencesOf (text : List Char) : List (List Char) :=
  ((splitDot text).map stripStr).filter (fun s => !s.isEmpty)

/-- The risk classification loop of lines 204-211 before truncation: one
entry per sentence whose lowercased form contains a risk keyword, in document
order. -/
def risksAll (text : List Char) : List RiskItem :=
  (sentencesOf text).filterMap (fun s =>
    if containsAnyB risk_keywords (lowerStr s) then
      some { text := s,
             severity :=
               if containsAnyB high_severity_keywords (lowerStr s) then
                 "High".toList
               else "Medium".toList }
    else none)

/-- The obligation classification loop of lines 213-217 before truncation. -/
def obligationsAll (text : List Char) : List ObligationItem :=
  (sentencesOf text).filterMap (fun s =>
    if containsAnyB obligation_keywords (lowerStr s) then
      some { text := s, type := "Legal Obligation".toList }
    else none)

/-- `LegalAI.identify_risks_and_obligations` (lines 194-222): classify each
sentence, then keep the first five risks and first five obligations
(`risks[:5]`, `obligations[:5]`). -/
def identify_risks_and_obligations (text : List Char) : RiskReport :=
  { risks := (risksAll text).take 5,
    obligations := (obligationsAll text).take 5 }

/-- A user-facing message surfaced by the UI (`st.info` / `st.warning` /
`st.error`). -/
inductive UiMessage where
  | info : List Char → UiMessage
  | warning : List Char → UiMessage
  | error : List Char → UiMessage
deriving DecidableEq

/-- Is the surfaced message an error message? -/
def isErrorMessage : Option UiMessage → Bool
  | some (UiMessage.error _) => true
  | _ => false

/-- `sample_docs["Employment Contract"]` (line 258), substituted as the mock
"extracted" text for non-plain-text uploads. -/
def sample_docs_employment_contract : List Char :=
  ("This Employment Agreement is entered into between Company ABC and " ++
   "Employee. The Employee agrees to perform duties as Software Engineer. " ++
   "Salary shall be $75,000 annually. Either party may terminate this " ++
   "agreement with 30 days notice. Employee shall maintain confidentiality " ++
   "of proprietary information. Governing law shall be the state of " ++
   "California.").toList

/-- The `st.info` text shown for non-plain-text uploads (line 352). -/
def upload_info_message : List Char :=
  ("File uploaded successfully! In production, this would extract text " ++
   "from PDF/DOC files.").toList

/-- The uploaded-file handling of lines 347-353: a plain-text file is decoded
and used as the document text with no message; any other file type (PDF, DOC,
DOCX) is never text-extracted — an informational message is shown and the
mock Employment Contract sample is substituted. -/
def process_uploaded_file (fileType content : List Char) :
    List Char × Option UiMessage :=
  if fileType = "text/plain".toList then (content, none)
  else (sample_docs_employment_contract, some (UiMessage.info upload_info_message))

/-- The guarded document analysis of line 355 (`if document_text and
st.button(...)`): the four document-analysis operations run only when the
document text is non-empty (Python truthiness) and the button was clicked. -/
def document_analyzer_step (document_text : List Char) (analyzeClicked : Bool) :
    Option (DocStructure × List Char × List TermEntry × RiskReport) :=
  if document_text ≠ [] ∧ analyzeClicked = true then
    some (analyze_document_structure document_text,
          simplify_legal_text document_text,
          extract_key_terms document_text,
          identify_risks_and_obligations document_text)
  else none

/-- The mock Q&A response selection of lines 682-689. -/
def qa_response (prompt : List Char) : List Char :=
  if containsAnyB ["contract".toList, "agreement".toList] (lowerStr prompt) then
    ("A contract is a legally binding agreement between two or more " ++
     "parties. Key elements include offer, acceptance, consideration, and " ++
     "mutual intent. Would you like me to analyze a specific contract for " ++
     "you?").toList
  else if containsAnyB ["liability".toList, "responsible".toList]
      (lowerStr prompt) then
    ("Liability refers to legal responsibility for one\x27s actions or " ++
     "debts. It can be limited or unlimited depending on the context. In " ++
     "contracts, liability clauses often specify what each party is " ++
     "responsible for if something goes wrong.").toList
  else if containsAnyB ["terminate".toList, "end".toList, "cancel".toList]
      (lowerStr prompt) then
    ("Contract termination can happen in several ways: mutual agreement, " ++
     "completion of terms, breach by one party, or specific termination " ++
     "clauses. Always check your contract for notice periods and " ++
     "termination procedures.").toList
  else
    "That\x27s a great question about \x27".toList ++ prompt ++
    ("\x27. Legal matters can be complex, and I\x27d recommend reviewing " ++
     "the specific terms in your documents or consulting with a qualified " ++
     "attorney for personalized advice. Is there a particular document " ++
     "you\x27d like me to analyze?").toList

/-- The chat guard of line 670 (`if prompt := st.chat_input(...)`): a response
is generated only for a submitted, non-empty prompt (Python truthiness of
`None` and of the empty string). -/
def chat_step (prompt : Option (List Char)) : Option (List Char) :=
  match prompt with
  | none => none
  | some p => if p = [] then none else some (qa_response p)

/-- Per-session state visible to the analysis operations: the `LegalAI`
instance's term database and the current document text. -/
structure Session where
  legal_terms_db : List (List Char × List Char)
  document_text : List Char
deriving DecidableEq

/-- The four analysis operations invocable on a session. -/
inductive Op where
  | extractKeyTerms
  | simplifyLegalText
  | analyzeDocumentStructure
  | identifyRisksAndObligations
deriving DecidableEq

/-- Result of one operation. -/
inductive OpResult where
  | terms : List TermEntry → OpResult
  | simplified : List Char → OpResult
  | docStructure : DocStructure → OpResult
  | report : RiskReport → OpResult
deriving DecidableEq

/-- Run one operation on the session state, returning its result and the
state after the call; the Python methods read `self.legal_terms_db` and the
text but assign to neither. -/
def runOp : Op → Session → OpResult × Session
  | Op.extractKeyTerms, s =>
    (OpResult.terms (extract_key_terms_db s.legal_terms_db s.document_text), s)
  | Op.simplifyLegalText, s =>
    (OpResult.simplified (simplify_legal_text s.document_text), s)
  | Op.analyzeDocumentStructure, s =>
    (OpResult.docStructure (analyze_document_structure s.document_text), s)
  | Op.identifyRisksAndObligations, s =>
    (OpResult.report (identify_risks_and_obligations s.document_text), s)

/-- Run a sequence of operations, threading the session state. -/
def runOps (ops : List Op) (s : Session) : Session :=
  ops.foldl (fun st op => (runOp op st).2) s

/-- Modelled from the spec: the repository's model-facing demo app (not under
`src/`) performs "Text chunking (splitting input by approximate character
count for model input-length limits): a single deterministic slicing
operation, no edge-case policy beyond fixed-width wrapping" — consecutive
fixed-width slices of the text. -/
def chunk_text (size : Nat) : List Char → List (List Char)
  | [] => []
  | c :: cs => (c :: cs.take (size - 1)) :: chunk_text size (cs.drop (size - 1))
termination_by s => s.length
decreasing_by
  simp only [List.length_drop, List.length_cons]
  omega

/-- The six-sentence input exhibiting the `[:5]` truncation of
`identify_risks_and_obligations`. -/
def c3_counterexample_text : List Char :=
  ("liable one. liable two. liable three. liable four. liable five. " ++
   "liable six").toList

/-- The input on which `simplify_legal_text` is not idempotent: the first
pass rewrites the leading `party of the second part` to `second party`,
which splices with the following text into a fresh occurrence of the same
pattern that only a second application rewrites. -/
def c10_counterexample_text : List Char :=
  "party of the second part of the second part".toList

/- ------------------------------------------------------------------ -/
/- Helper lemmas (shared)                                              -/
/- ------------------------------------------------------------------ -/

/-- The ten database keys have pairwise distinct title-cased forms, so an
entry identifies its source pair. -/
theorem legal_terms_db_title_inj :
    ∀ p ∈ legal_terms_db, ∀ q ∈ legal_terms_db,
      titleStr p.1 = titleStr q.1 → p = q := by decide

/-- A single operation never modifies the session state. -/
theorem runOp_snd (op : Op) (s : Session) : (runOp op s).2 = s := by
  cases op <;> rfl

/-- Running any sequence of operations never modifies the session state. -/
theorem runOps_id (ops : List Op) (s : Session) : runOps ops s = s := by
  induction ops generalizing s with
  | nil => rfl
  | cons op ops ih =>
    show List.foldl _ _ _ = s
    rw [List.foldl_cons, runOp_snd]
    exact ih s

/-- If a string has no word-bounded case-insensitive occurrence of the
pattern, the substitution scan leaves it unchanged (for any fuel). -/
theorem reSubAux_id_of_no_occ (p0 : Char) (ps rep : List Char) :
    ∀ (fuel : Nat) (s : List Char) (prev : Option Char),
      hasOccAux p0 ps prev s = false → reSubAux p0 ps rep fuel prev s = s := by
  intro fuel
  induction fuel with
  | zero => intro s prev _; rfl
  | succ fuel ih =>
    intro s prev h
    cases s with
    | nil => rfl
    | cons c rest =>
      rw [hasOccAux, Bool.or_eq_false_iff] at h
      rw [reSubAux_succ_cons, if_neg (by simp [h.1]), ih rest (some c) h.2]

/-- `re.sub` is the identity on strings without an occurrence of the
pattern. -/
theorem re_sub_wb_ci_id_of_no_occ {pat s : List Char} (rep : List Char)
    (h : has_wb_occurrence pat s = false) : re_sub_wb_ci pat rep s = s := by
  cases pat with
  | nil => rfl
  | cons p0 ps =>
    rw [has_wb_occurrence] at h
    exact reSubAux_id_of_no_occ p0 ps rep s.length s none h

/-- If none of the nine patterns occurs in a string, `simplify_legal_text`
leaves it unchanged. -/
theorem simplify_legal_text_id_of_no_occ (s : List Char)
    (h : simplified_patterns.all
      (fun pr => !(has_wb_occurrence pr.1 s)) = true) :
    simplify_legal_text s = s := by
  simp only [simplified_patterns, List.all_cons, List.all_nil,
    Bool.and_eq_true, Bool.not_eq_true'] at h
  obtain ⟨h1, h2, h3, h4, h5, h6, h7, h8, h9, -⟩ := h
  simp only [simplify_legal_text, simplified_patterns, List.foldl_cons,
    List.foldl_nil, apply_sub]
  rw [re_sub_wb_ci_id_of_no_occ _ h1, re_sub_wb_ci_id_of_no_occ _ h2,
    re_sub_wb_ci_id_of_no_occ _ h3, re_sub_wb_ci_id_of_no_occ _ h4,
    re_sub_wb_ci_id_of_no_occ _ h5, re_sub_wb_ci_id_of_no_occ _ h6,
    re_sub_wb_ci_id_of_no_occ _ h7, re_sub_wb_ci_id_of_no_occ _ h8,
    re_sub_wb_ci_id_of_no_occ _ h9]

/-- Round-half-even is the identity on integers. -/
theorem rhe_intCast (z : ℤ) : rhe (z : ℚ) = z := by
  simp only [rhe, Int.floor_intCast, sub_self]
  norm_num

/-- Python `round(x, 1)` is exact on rationals whose tenfold is an
integer. -/
theorem pyRound1_intCast_div_ten (z : ℤ) :
    pyRound1 ((z : ℚ) / 10) = (z : ℚ) / 10 := by
  have h10 : (10 : ℚ) * ((z : ℚ) / 10) = (z : ℚ) := by ring
  rw [pyRound1, h10, rhe_intCast]

/-- Every chunk produced by `chunk_text` has at most `size` characters
(strong induction on the text length). -/
theorem chunk_text_length_le (size : Nat) (hs : 0 < size) :
    ∀ (n : Nat) (text : List Char), text.length ≤ n →
      ∀ p ∈ chunk_text size text, p.length ≤ size := by
  intro n
  induction n with
  | zero =>
    intro text htext p hp
    have : text = [] := List.eq_nil_of_length_eq_zero (Nat.le_zero.mp htext)
    subst this
    simp [chunk_text] at hp
  | succ n ih =>
    intro text htext p hp
    cases text with
    | nil => simp [chunk_text] at hp
    | cons c cs =>
      rw [chunk_text] at hp
      rcases List.mem_cons.mp hp with hhead | htail
      · subst hhead
        have := List.length_take_le (size - 1) cs
        simp only [List.length_cons]
        omega
      · have hlen : (cs.drop (size - 1)).length ≤ n := by
          have := List.length_drop (size - 1) cs
          simp only [List.length_cons] at htext
          omega
        exact ih _ hlen p htail

/- ------------------------------------------------------------------ -/
/- Claim theorems                                                      -/
/- ------------------------------------------------------------------ -/

/-- C1: `simplify_legal_text` returns exactly the result of applying its
nine regex-pattern-to-replacement substitutions to the text, in the listed
order, each applied case-insensitively to every word-bounded occurrence
found by the left-to-right scan, and makes no other change; e.g. every
word-bounded `whereas` becomes `Since`, `shall` becomes `must`,
`pursuant to` becomes `according to`. -/
theorem simplify_legal_text_is_nine_substitutions :
    (∀ text : List Char, simplify_legal_text text =
      re_sub_wb_ci "party of the second part".toList "second party".toList
       (re_sub_wb_ci "party of the first part".toList "first party".toList
        (re_sub_wb_ci "may".toList "can".toList
         (re_sub_wb_ci "shall".toList "must".toList
          (re_sub_wb_ci "pursuant to".toList "according to".toList
           (re_sub_wb_ci "notwithstanding".toList "despite".toList
            (re_sub_wb_ci "hereinafter".toList "from now on".toList
             (re_sub_wb_ci "heretofore".toList "before this".toList
              (re_sub_wb_ci "whereas".toList "Since".toList text))))))))) ∧
    simplify_legal_text "Whereas the party shall act pursuant to law".toList =
      "Since the party must act according to law".toList ∧
    simplify_legal_text "MAYBE he may, MAY he?".toList =
      "MAYBE he can, can he?".toList ∧
    simplify_legal_text "No legal jargon here".toList =
      "No legal jargon here".toList :=
  ⟨fun _ => rfl, by decide, by decide, by decide⟩

/-- C4: the text-chunking operation (spec-modelled: the chunking code lives
in the repository's model-facing app, which is not under `src/`) splits the
text by character count into pieces each of length not exceeding the
configured size. -/
theorem chunk_text_pieces_within_size (size : Nat) (text : List Char)
    (h : 0 < size) :
    (chunk_text size text).all (fun p => decide (p.length ≤ size)) = true := by
  rw [List.all_eq_true]
  intro p hp
  rw [decide_eq_true_eq]
  exact chunk_text_length_le size h text.length text (Nat.le_refl _) p hp

/-- Witness for C4 at `size = 3`, `text = "hello world"`. -/
theorem chunk_text_pieces_within_size_witness :
    0 < 3 ∧
    (chunk_text 3 "hello world".toList).all
      (fun p => decide (p.length ≤ 3)) = true :=
  ⟨by decide, chunk_text_pieces_within_size 3 "hello world".toList (by decide)⟩

/-- C5: the document-analysis operations are never invoked for empty
document text (line 355 guard), and no Q&A response is generated for empty
chat input (line 670 guard). -/
theorem empty_input_guards :
    (∀ clicked : Bool, document_analyzer_step [] clicked = none) ∧
    chat_step none = none ∧
    chat_step (some []) = none := by
  refine ⟨fun clicked => ?_, rfl, ?_⟩
  · simp [document_analyzer_step]
  · simp [chat_step]

/-- C6 counterexample: on a PDF upload, `prototype.py` does not attempt text
extraction at all — it returns the mock Employment Contract sample together
with an `st.info` message, and no error message is surfaced, contradicting
the claim that PDF-extraction failures are caught and surfaced as a
user-facing error message. -/
theorem pdf_upload_no_error_counterexample :
    process_uploaded_file "application/pdf".toList "%PDF-1.4 garbage".toList =
      (sample_docs_employment_contract,
       some (UiMessage.info upload_info_message)) ∧
    isErrorMessage
      (process_uploaded_file "application/pdf".toList
        "%PDF-1.4 garbage".toList).2 = false := by
  decide

/-- C6 amended: uploaded non-plain-text files (PDF, DOC, DOCX) are never
text-extracted; the handler shows an informational message and substitutes
the mock Employment Contract sample text, and no error message is
surfaced. -/
theorem process_uploaded_file_never_errors (fileType content : List Char)
    (h : fileType ≠ "text/plain".toList) :
    process_uploaded_file fileType content =
      (sample_docs_employment_contract,
       some (UiMessage.info upload_info_message)) ∧
    isErrorMessage (process_uploaded_file fileType content).2 = false := by
  rw [process_uploaded_file, if_neg h]
  exact ⟨rfl, rfl⟩

/-- Witness for C6 amended at a DOCX upload. -/
theorem process_uploaded_file_never_errors_witness :
    ("application/msword".toList ≠ "text/plain".toList) ∧
    (process_uploaded_file "application/msword".toList "doc bytes".toList =
      (sample_docs_employment_contract,
       some (UiMessage.info upload_info_message)) ∧
     isErrorMessage
       (process_uploaded_file "application/msword".toList
         "doc bytes".toList).2 = false) :=
  ⟨by decide,
   process_uploaded_file_never_errors "application/msword".toList
     "doc bytes".toList (by decide)⟩

/-- C2: for every text and every `(term, definition)` pair of the static
ten-entry mapping, `extract_key_terms` returns an entry carrying exactly the
stored definition (labelled with the title-cased term) iff the term occurs
case-insensitively in the text; in particular no entry is returned for a
term not present. -/
theorem extract_key_terms_static_definition (text term defn : List Char)
    (h : (term, defn) ∈ legal_terms_db) :
    isSubstrB term (lowerStr text) = true ↔
      (extract_key_terms text).any
        (fun e => e.term == titleStr term && e.definition == defn) = true := by
  constructor
  · intro hc
    apply List.any_eq_true.mpr
    refine ⟨{ term := titleStr term, definition := defn,
              context := findContext term text,
              importance := if high_importance_terms.contains term
                then "High".toList else "Medium".toList }, ?_, by simp⟩
    unfold extract_key_terms extract_key_terms_db
    exact List.mem_filterMap.mpr ⟨(term, defn), h, by simp [hc]⟩
  · intro ha
    obtain ⟨e, he, hp⟩ := List.any_eq_true.mp ha
    rw [Bool.and_eq_true, beq_iff_eq, beq_iff_eq] at hp
    unfold extract_key_terms extract_key_terms_db at he
    obtain ⟨td, htd, hf⟩ := List.mem_filterMap.mp he
    by_cases hc : isSubstrB td.1 (lowerStr text) = true
    · simp only [hc, if_true, Option.some_inj] at hf
      have h1 : titleStr td.1 = titleStr term := by
        rw [← hf] at hp
        exact hp.1
      have h2 := legal_terms_db_title_inj td htd (term, defn) h h1
      rw [h2] at hc
      exact hc
    · simp [hc] at hf

/-- C3 counterexample: on a six-sentence input whose every sentence contains
the risk keyword `liable`, the sixth matching sentence is not reported (the
source truncates to `risks[:5]`), so a sentence is not reported as a risk
if-and-only-if it contains a risk keyword. -/
theorem identify_risks_truncation_counterexample :
    (sentencesOf c3_counterexample_text).contains "liable six".toList = true ∧
    containsAnyB risk_keywords (lowerStr "liable six".toList) = true ∧
    (identify_risks_and_obligations c3_counterexample_text).risks.all
      (fun r => r.text != "liable six".toList) = true := by decide

/-- C3 amended: each sentence is classified as a risk iff its lowercased form
contains one of the seven risk keywords and as an obligation iff it contains
one of the six obligation keywords, with severity `High` exactly when the
sentence contains `penalty`, `damages` or `forfeit` and `Medium` otherwise
and no other scoring; the reported lists are these classifications truncated
to the first five entries. -/
theorem identify_risks_and_obligations_classification (text : List Char) :
    (identify_risks_and_obligations text).risks = (risksAll text).take 5 ∧
    (identify_risks_and_obligations text).obligations =
      (obligationsAll text).take 5 ∧
    (sentencesOf text).all (fun s =>
      (risksAll text).any (fun r => r.text == s) ==
        containsAnyB risk_keywords (lowerStr s)) = true ∧
    (sentencesOf text).all (fun s =>
      (obligationsAll text).any (fun o => o.text == s) ==
        containsAnyB obligation_keywords (lowerStr s)) = true ∧
    (risksAll text).all (fun r =>
      r.severity == (if containsAnyB high_severity_keywords (lowerStr r.text)
        then "High".toList else "Medium".toList)) = true ∧
    (obligationsAll text).all
      (fun o => o.type == "Legal Obligation".toList) = true := by
  refine ⟨rfl, rfl, ?_, ?_, ?_, ?_⟩
  · rw [List.all_eq_true]
    intro s hs
    rw [beq_iff_eq]
    cases hkw : containsAnyB risk_keywords (lowerStr s) with
    | true =>
      apply List.any_eq_true.mpr
      refine ⟨{ text := s,
                severity := if containsAnyB high_severity_keywords (lowerStr s)
                  then "High".toList else "Medium".toList }, ?_, by simp⟩
      unfold risksAll
      exact List.mem_filterMap.mpr ⟨s, hs, by simp [hkw]⟩
    | false =>
      apply List.any_eq_false.mpr
      intro r hr hrs
      simp only [beq_iff_eq] at hrs
      unfold risksAll at hr
      obtain ⟨s', hs', hf⟩ := List.mem_filterMap.mp hr
      by_cases hcs : containsAnyB risk_keywords (lowerStr s') = true
      · simp only [hcs, if_true, Option.some_inj] at hf
        subst hf
        rw [show s' = s from hrs] at hcs
        simp [hcs] at hkw
      · simp [hcs] at hf
  · rw [List.all_eq_true]
    intro s hs
    rw [beq_iff_eq]
    cases hkw : containsAnyB obligation_keywords (lowerStr s) with
    | true =>
      apply List.any_eq_true.mpr
      refine ⟨{ text := s, type := "Legal Obligation".toList }, ?_, by simp⟩
      unfold obligationsAll
      exact List.mem_filterMap.mpr ⟨s, hs, by simp [hkw]⟩
    | false =>
      apply List.any_eq_false.mpr
      intro o ho hos
      simp only [beq_iff_eq] at hos
      unfold obligationsAll at ho
      obtain ⟨s', hs', hf⟩ := List.mem_filterMap.mp ho
      by_cases hcs : containsAnyB obligation_keywords (lowerStr s') = true
      · simp only [hcs, if_true, Option.some_inj] at hf
        subst hf
        rw [show s' = s from hos] at hcs
        simp [hcs] at hkw
      · simp [hcs] at hf
  · rw [List.all_eq_true]
    intro r hr
    unfold risksAll at hr
    obtain ⟨s', hs', hf⟩ := List.mem_filterMap.mp hr
    by_cases hcs : containsAnyB risk_keywords (lowerStr s') = true
    · simp only [hcs, if_true, Option.some_inj] at hf
      subst hf
      simp
    · simp [hcs] at hf
  · rw [List.all_eq_true]
    intro o ho
    unfold obligationsAll at ho
    obtain ⟨s', hs', hf⟩ := List.mem_filterMap.mp ho
    by_cases hcs : containsAnyB obligation_keywords (lowerStr s') = true
    · simp only [hcs, if_true, Option.some_inj] at hf
      subst hf
      simp
    · simp [hcs] at hf

/-- C7: the legal-term mapping is static and operations have no side
effects: running any sequence of the four analysis operations leaves the
session state — the ten-entry term database and the document text — exactly
as it was, and the program's database has its initial ten entries. -/
theorem legal_ai_state_and_text_immutable (ops : List Op)
    (db : List (List Char × List Char)) (t : List Char) :
    runOps ops { legal_terms_db := db, document_text := t } =
      { legal_terms_db := db, document_text := t } ∧
    (runOps ops { legal_terms_db := legal_terms_db, document_text := t
      }).legal_terms_db = legal_terms_db ∧
    legal_terms_db.length = 10 ∧
    (∀ (op : Op) (s : Session), (runOp op s).2 = s) := by
  refine ⟨runOps_id _ _, ?_, rfl, runOp_snd⟩
  rw [runOps_id]


/-- Witness for C2 at the pair `("liability", its stored definition)` and the
text `"Limited LIABILITY clause"`. -/
theorem extract_key_terms_static_definition_witness :
    (("liability".toList,
      "Legal responsibility for one\x27s actions or debts".toList) ∈
        legal_terms_db) ∧
    (isSubstrB "liability".toList
        (lowerStr "Limited LIABILITY clause".toList) = true ↔
      (extract_key_terms "Limited LIABILITY clause".toList).any
        (fun e => e.term == titleStr "liability".toList &&
          e.definition ==
            "Legal responsibility for one\x27s actions or debts".toList) =
        true) :=
  ⟨by decide,
   extract_key_terms_static_definition "Limited LIABILITY clause".toList
     "liability".toList
     "Legal responsibility for one\x27s actions or debts".toList (by decide)⟩

/-- C8: `identify_risks_and_obligations` returns at most five risks and at
most five obligations, and the returned entries are exactly the first five
classified ones in document order (truncation keeps the earliest
matches). -/
theorem identify_risks_and_obligations_top5 (text : List Char) :
    (identify_risks_and_obligations text).risks.length ≤ 5 ∧
    (identify_risks_and_obligations text).obligations.length ≤ 5 ∧
    (identify_risks_and_obligations text).risks = (risksAll text).take 5 ∧
    (identify_risks_and_obligations text).obligations =
      (obligationsAll text).take 5 ∧
    (∀ i : Nat, (identify_risks_and_obligations text).risks[i]? =
      if i < 5 then (risksAll text)[i]? else none) ∧
    (∀ i : Nat, (identify_risks_and_obligations text).obligations[i]? =
      if i < 5 then (obligationsAll text)[i]? else none) := by
  refine ⟨?_, ?_, rfl, rfl, ?_, ?_⟩
  · show ((risksAll text).take 5).length ≤ 5
    rw [List.length_take]
    omega
  · show ((obligationsAll text).take 5).length ≤ 5
    rw [List.length_take]
    omega
  · intro i
    show ((risksAll text).take 5)[i]? = _
    rw [List.getElem?_take]
  · intro i
    show ((obligationsAll text).take 5)[i]? = _
    rw [List.getElem?_take]

/-- C9: the analysis scores of `analyze_document_structure`: the complexity
score lies between 0 and 100 inclusive, the readability score equals 100
minus the complexity score, and the estimated read time is at least one
minute (exact-rational model of the source's float arithmetic). -/
theorem analyze_document_structure_scores (text : List Char) :
    0 ≤ (analyze_document_structure text).complexity_score ∧
    (analyze_document_structure text).complexity_score ≤ 100 ∧
    (analyze_document_structure text).readability_score =
      100 - (analyze_document_structure text).complexity_score ∧
    1 ≤ (analyze_document_structure text).estimated_read_time := by
  have key : ∀ wc sc : Nat,
      min (100 : ℚ) ((wc : ℚ) / 10 + (sc : ℚ) / 5) =
        ((min 1000 ((wc : ℤ) + 2 * sc) : ℤ) : ℚ) / 10 := by
    intro wc sc
    have h1 : (wc : ℚ) / 10 + (sc : ℚ) / 5 = (((wc : ℤ) + 2 * sc : ℤ) : ℚ) / 10 := by
      push_cast
      ring
    have h2 : (100 : ℚ) = ((1000 : ℤ) : ℚ) / 10 := by norm_num
    rw [h1, h2, min_div_div_right (by norm_num : (0:ℚ) ≤ 10), ← Int.cast_min]
  simp only [analyze_document_structure]
  set wc := countWords text with hwc
  set sc := ((splitDot text).filter (fun s => !(stripStr s).isEmpty)).length
    with hsc
  set z : ℤ := min 1000 ((wc : ℤ) + 2 * sc) with hz
  have hz0 : (0 : ℤ) ≤ z := le_min (by norm_num) (by positivity)
  have hz1000 : z ≤ 1000 := min_le_left _ _
  have hcs : pyRound1 (min (100 : ℚ) ((wc : ℚ) / 10 + (sc : ℚ) / 5)) =
      (z : ℚ) / 10 := by
    rw [key, ← hz, pyRound1_intCast_div_ten]
  have hrd : (100 : ℚ) - min (100 : ℚ) ((wc : ℚ) / 10 + (sc : ℚ) / 5) =
      (((1000 - z : ℤ)) : ℚ) / 10 := by
    rw [key, ← hz]
    push_cast
    ring
  refine ⟨?_, ?_, ?_, ?_⟩
  · rw [hcs]
    positivity
  · rw [hcs]
    rw [div_le_iff₀ (by norm_num : (0:ℚ) < 10)]
    exact_mod_cast hz1000
  · rw [hcs, hrd, pyRound1_intCast_div_ten]
    push_cast
    ring
  · exact le_max_left 1 _

/-- C10 counterexample: `simplify_legal_text` is not idempotent — on
`"party of the second part of the second part"` the first application yields
`"second party of the second part"` (the single scan does not revisit the
occurrence created by its own replacement), and a second application
rewrites it further to `"second second party"`. -/
theorem simplify_legal_text_not_idempotent :
    simplify_legal_text (simplify_legal_text c10_counterexample_text) ≠
      simplify_legal_text c10_counterexample_text ∧
    simplify_legal_text c10_counterexample_text =
      "second party of the second part".toList ∧
    simplify_legal_text (simplify_legal_text c10_counterexample_text) =
      "second second party".toList := by decide

/-- C10 amended: `simplify_legal_text` is idempotent on every text whose
simplified form contains no word-bounded case-insensitive occurrence of any
of the nine patterns; in general a second application can change the output,
because a replacement can splice with the following text into a fresh
pattern occurrence that the single left-to-right scan of `re.sub` does not
revisit. -/
theorem simplify_legal_text_idempotent_of_no_occ (text : List Char)
    (h : simplified_patterns.all
      (fun pr => !(has_wb_occurrence pr.1 (simplify_legal_text text))) = true) :
    simplify_legal_text (simplify_legal_text text) =
      simplify_legal_text text :=
  simplify_legal_text_id_of_no_occ (simplify_legal_text text) h

/-- Witness for C10 amended at `"hello there"` (no pattern occurs in its
simplified form). -/
theorem simplify_legal_text_idempotent_of_no_occ_witness :
    (simplified_patterns.all
      (fun pr =>
        !(has_wb_occurrence pr.1
          (simplify_legal_text "hello there".toList))) = true) ∧
    simplify_legal_text (simplify_legal_text "hello there".toList) =
      simplify_legal_text "hello there".toList :=
  ⟨by decide,
   simplify_legal_text_idempotent_of_no_occ "hello there".toList (by decide)⟩
